import Mathlib

/-!
A shallow embedding of the endpoint-picker scheduling core of the
gateway-api-inference-extension repository: the datastore (inference pool,
model registry, pod map, session table), the session-affinity and
KV-cache-aware scorers, the random and LRU pickers, the filter decision
tree and the scheduler entry point.  Go maps are modelled as association
lists, Go errors as an explicit error tree (so that wrapped error codes
stay observable), float64 scores and utilizations as rationals, and the
external KV-cache indexer as an oracle function supplied to the scorer.
-/

namespace InfExt

/-! ## Association-list maps (model of Go maps and sync.Map) -/

def alookup {α β : Type} [DecidableEq α] : List (α × β) → α → Option β
  | [], _ => none
  | (k, v) :: rest, key => if k = key then some v else alookup rest key

def aerase {α β : Type} [DecidableEq α] (l : List (α × β)) (key : α) : List (α × β) :=
  l.filter (fun p => decide (p.1 ≠ key))

def ainsert {α β : Type} [DecidableEq α] (l : List (α × β)) (key : α) (v : β) :
    List (α × β) :=
  (key, v) :: aerase l key

theorem alookup_ainsert_self {α β : Type} [DecidableEq α]
    (l : List (α × β)) (key : α) (v : β) : alookup (ainsert l key v) key = some v := by
  simp [ainsert, alookup]

theorem alookup_aerase_self {α β : Type} [DecidableEq α]
    (l : List (α × β)) (key : α) : alookup (aerase l key) key = none := by
  induction l with
  | nil => rfl
  | cons p rest ih =>
    by_cases h : p.1 = key
    · simpa [aerase, alookup, h] using ih
    · simpa [aerase, alookup, h] using ih

theorem alookup_mem {α β : Type} [DecidableEq α]
    {l : List (α × β)} {key : α} {v : β} (h : alookup l key = some v) : (key, v) ∈ l := by
  induction l with
  | nil => simp [alookup] at h
  | cons p rest ih =>
    rcases p with ⟨k, w⟩
    by_cases hk : k = key
    · subst hk
      simp [alookup] at h
      subst h
      exact List.mem_cons_self _ _
    · simp [alookup, hk] at h
      exact List.mem_cons_of_mem _ (ih h)

theorem ainsert_mem {α β : Type} [DecidableEq α]
    {l : List (α × β)} {key : α} {v : β} {p : α × β}
    (h : p ∈ ainsert l key v) : p = (key, v) ∨ p ∈ l := by
  rcases List.mem_cons.mp h with h1 | h1
  · exact Or.inl h1
  · exact Or.inr (List.mem_of_mem_filter h1)

/-! ## Data model -/

/-- Kubernetes `types.NamespacedName`: a (namespace, name) pair. -/
structure NamespacedName where
  ns : String
  name : String
deriving DecidableEq, Repr

/-- `NamespacedName.String()` renders as `namespace + "/" + name`. -/
def NamespacedName.render (n : NamespacedName) : String :=
  n.ns ++ "/" ++ n.name

/-- `backendmetrics.Pod`: pod identity plus the address used towards
external services. -/
structure Pod where
  namespacedName : NamespacedName
  address : String
deriving DecidableEq, Repr

/-- The per-pod metrics snapshot visible to the scheduler
(`backendmetrics.PodMetrics` flattened to the fields the core reads). -/
structure PodMetrics where
  pod : Pod
  queueDepth : Nat
  kvCacheUtilization : ℚ
  activeLoRAAdapters : List String
  maxLoRASlots : Nat
deriving DecidableEq, Repr

/-- `v1alpha2.InferenceModel` flattened to the fields the datastore reads:
object identity, `Spec.ModelName` and the creation timestamp
(`metav1.Time` modelled as a natural number; `Before` is strict `<`). -/
structure InferenceModel where
  name : String
  ns : String
  spec_modelName : String
  creationTimestamp : Nat
deriving DecidableEq, Repr

/-- `v1alpha2.InferencePool` flattened: object identity plus the label
selector of `Spec.Selector` (a set of required key/value pairs). -/
structure InferencePool where
  name : String
  ns : String
  spec_selector : List (String × String)
deriving DecidableEq, Repr

/-- `sessionInfo`: the value type of the session table. -/
structure SessionInfo where
  pod : Pod
  lru : Nat
deriving DecidableEq, Repr

/-- The datastore state: pool descriptor, model registry keyed by
`Spec.ModelName`, pod map keyed by namespaced name, session table keyed
by session id.  (The Go `sync.Map`s and the `poolAndModelsMu` lock
linearise accesses; one linearised state is modelled here.) -/
structure Datastore where
  pool : Option InferencePool
  models : List (String × InferenceModel)
  pods : List (NamespacedName × PodMetrics)
  sessions : List (String × SessionInfo)
deriving DecidableEq, Repr

/-! ## Datastore operations (from pkg/epp/datastore/datastore.go) -/

/-- `Clear()`: drop pool, models and pods.  The session table is not
touched by the source. -/
def Datastore.clear (ds : Datastore) : Datastore :=
  { ds with pool := none, models := [], pods := [] }

/-- `PoolHasSynced()`: the pool pointer is non-nil. -/
def Datastore.poolHasSynced (ds : Datastore) : Bool :=
  ds.pool.isSome

/-- `labels.SelectorFromSet(set).Matches(podLabels)`: every key/value
requirement of the selector set is present in the pod labels. -/
def selectorMatches (selector : List (String × String))
    (podLabels : List (String × String)) : Bool :=
  selector.all (fun kv => decide (alookup podLabels kv.1 = some kv.2))

/-- `PoolLabelsMatch(podLabels)`: reads `ds.pool.Spec.Selector` without a
nil check; `none` models the nil-pointer dereference taken when the pool
was never set. -/
def Datastore.poolLabelsMatch (ds : Datastore)
    (podLabels : List (String × String)) : Option Bool :=
  match ds.pool with
  | none => none
  | some pool => some (selectorMatches pool.spec_selector podLabels)

/-- `ModelSetIfOlder(infModel)`: keep an existing entry only when it is a
different namespaced object with a strictly earlier creation timestamp;
otherwise install the incoming model.  Returns the updated store and the
Go boolean result. -/
def Datastore.modelSetIfOlder (ds : Datastore) (infModel : InferenceModel) :
    Datastore × Bool :=
  match alookup ds.models infModel.spec_modelName with
  | some existing =>
    if (infModel.name ≠ existing.name ∨ infModel.ns ≠ existing.ns)
        ∧ existing.creationTimestamp < infModel.creationTimestamp then
      (ds, false)
    else
      ({ ds with models := ainsert ds.models infModel.spec_modelName infModel }, true)
  | none =>
      ({ ds with models := ainsert ds.models infModel.spec_modelName infModel }, true)

/-- `ModelGet(modelName)`. -/
def Datastore.modelGet (ds : Datastore) (modelName : String) : Option InferenceModel :=
  alookup ds.models modelName

/-- `PodDelete(namespacedName)`: `LoadAndDelete` on the pod map; the
boolean records whether `StopRefreshLoop` was invoked (it is called
exactly when an entry was present and removed). -/
def Datastore.podDelete (ds : Datastore) (namespacedName : NamespacedName) :
    Datastore × Bool :=
  match alookup ds.pods namespacedName with
  | some _ => ({ ds with pods := aerase ds.pods namespacedName }, true)
  | none => (ds, false)

/-- `PodGetAll()`: all stored pod-metrics handles (a `Range` over the pod
map; the association-list order stands in for the unspecified map order). -/
def Datastore.podGetAll (ds : Datastore) : List PodMetrics :=
  ds.pods.map Prod.snd

/-- `SetPodForSession(sessionID, pod)`: store the pod with `lastUsed`
refreshed to now. -/
def Datastore.setPodForSession (ds : Datastore) (sessionID : String) (pod : Pod)
    (now : Nat) : Datastore :=
  { ds with sessions := ainsert ds.sessions sessionID { pod := pod, lru := now } }

/-- `GetPodForSession(sessionID)`: the stored pod, or `none` when the
session is unknown.  (The wrong-shape type-assertion branch of the Go
code is unrepresentable here: the table is typed.) -/
def Datastore.getPodForSession (ds : Datastore) (sessionID : String) : Option Pod :=
  (alookup ds.sessions sessionID).map SessionInfo.pod

/-! ## Errors (model of the Go error values the core produces) -/

/-- The `errutil` error codes reachable from the embedded code, plus the
code the specification attributes to indexer failures. -/
inductive ErrCode where
  | InferencePoolResourceExhausted
  | KVCacheIndexerUnavailable
  | Internal
deriving DecidableEq, Repr

/-- A Go error value: an `errutil.Error` carrying a code, a
`fmt.Errorf` wrap with a `%w` verb (the inner error stays reachable via
`errors.Unwrap`), or an opaque error with no code. -/
inductive GoError where
  | errUtil (code : ErrCode) (msg : String)
  | wrap (msg : String) (inner : GoError)
  | simple (msg : String)
deriving DecidableEq, Repr

/-- Whether `errors.As` run on the error finds an `errutil.Error` with the
given code somewhere along the unwrap chain. -/
def GoError.carriesCode : GoError → ErrCode → Bool
  | .errUtil c _, code => decide (c = code)
  | .wrap _ inner, code => inner.carriesCode code
  | .simple _, _ => false

/-! ## Requests and scorers -/

/-- `types.LLMRequest`. -/
structure LLMRequest where
  model : String
  prompt : String
  sessionID : String
  critical : Bool
deriving DecidableEq, Repr

/-- `scorers.PodScore`: a pod together with its score. -/
structure PodScore where
  pod : PodMetrics
  score : ℚ
deriving DecidableEq, Repr

/-- `SessionAffinityScorer.ScoreTargets` (session_affinity_scorer.go):
look up the session pod once, then score `1.0` for every pod whose
rendered namespaced name equals the stored one and `0.0` otherwise
(the Go loop leaves the zero value in place).  Always returns `nil`
error. -/
def sessionAffinityScoreTargets (datastore : Datastore) (req : LLMRequest)
    (pods : List PodMetrics) : Except GoError (List PodScore) :=
  let selectedPodFullName :=
    if req.sessionID ≠ "" then
      match datastore.getPodForSession req.sessionID with
      | some selectedPod => selectedPod.namespacedName.render
      | none => ""
    else ""
  .ok (pods.map (fun pod =>
    { pod := pod,
      score := if selectedPodFullName = pod.pod.namespacedName.render then 1 else 0 }))

/-- One entry of the reply of the external KV-cache indexer:
a pod identifier (its address) with a score. -/
structure NameScore where
  name : String
  score : ℚ
deriving DecidableEq, Repr

/-- The external KV-cache indexer, `GetPodScores(prompt, model,
podIdentifiers)`, as a black-box oracle. -/
def Indexer : Type :=
  String → String → List String → Except GoError (List NameScore)

/-- `podMetricsToKeysAndMap`: the identifier list in input order and the
identifier-to-pod map (later pods overwrite earlier ones on a duplicate
address, as the Go map insert does).  The nil-pod skip of the Go loop has
no counterpart: a Lean list holds no nil entries. -/
def podMetricsToKeysAndMap (pods : List PodMetrics) :
    List String × List (String × PodMetrics) :=
  (pods.map (fun pod => pod.pod.address),
   pods.foldl (fun m pod => ainsert m pod.pod.address pod) [])

/-- `KVCacheAwareScorer.ScoreTargets`: call the indexer on the pod
addresses; on failure wrap its error; on success keep, in indexer reply
order, the scores whose identifier maps back to an input pod.  (The Go
nil-request guard is unrepresentable: requests are values here.) -/
def kvCacheAwareScoreTargets (kvCacheIndexer : Indexer) (req : LLMRequest)
    (pods : List PodMetrics) : Except GoError (List PodScore) :=
  let keysAndMap := podMetricsToKeysAndMap pods
  if keysAndMap.1.length = 0 then .ok []
  else
    match kvCacheIndexer req.prompt req.model keysAndMap.1 with
    | .error err => .error (.wrap "failed to get pod scores" err)
    | .ok scores =>
        .ok (scores.foldl (fun scoredPods pod =>
          match alookup keysAndMap.2 pod.name with
          | some podMetrics => scoredPods ++ [{ score := pod.score, pod := podMetrics }]
          | none => scoredPods) [])

/-! ## Pickers -/

/-- `RandomPicker.Pick` (random_picker.go): `rand.Intn(len(pods))` then
index.  `rand.Intn` panics when its argument is zero; `none` models that
panic.  The draw is the supplied `r` reduced modulo the length. -/
def randomPickerPick (r : Nat) (pods : List PodMetrics) : Option PodMetrics :=
  if pods.length = 0 then none
  else pods[r % pods.length]?

/-- The loop of `LRUPicker.Pick`: walk the scored pods keeping the cache
(unknown pods inserted with count 0), the current best list and the
current minimum, which starts at the literal `100000` of the source. -/
def lruLoop : List PodMetrics → List (NamespacedName × Nat) → List PodMetrics → Nat →
    List (NamespacedName × Nat) × List PodMetrics × Nat
  | [], podsCache, bestPods, minUsages => (podsCache, bestPods, minUsages)
  | pod :: rest, podsCache, bestPods, minUsages =>
    let lookedUp :=
      match alookup podsCache pod.pod.namespacedName with
      | some u => (u, podsCache)
      | none => (0, ainsert podsCache pod.pod.namespacedName 0)
    if lookedUp.1 = minUsages then
      lruLoop rest lookedUp.2 (bestPods ++ [pod]) minUsages
    else if lookedUp.1 < minUsages then
      lruLoop rest lookedUp.2 [pod] lookedUp.1
    else
      lruLoop rest lookedUp.2 bestPods minUsages

/-- `p.podsCache[nn] = p.podsCache[nn] + 1` (a missing key reads as 0). -/
def lruIncr (podsCache : List (NamespacedName × Nat)) (nn : NamespacedName) :
    List (NamespacedName × Nat) :=
  ainsert podsCache nn ((alookup podsCache nn).getD 0 + 1)

/-- `LRUPicker.Pick` (lru_picker.go): find the pods with the lowest usage
count, return a sole best pod directly, otherwise defer to the random
picker; increment the count of the winner.  Returns the winner and the
updated cache; `none` models the panic of `rand.Intn(0)` when the best
list is empty. -/
def lruPickerPick (podsCache : List (NamespacedName × Nat)) (r : Nat)
    (scoredPods : List PodMetrics) :
    Option (PodMetrics × List (NamespacedName × Nat)) :=
  let loopResult := lruLoop scoredPods podsCache [] 100000
  match loopResult.2.1 with
  | [b] => some (b, lruIncr loopResult.1 b.pod.namespacedName)
  | bestPods =>
    match randomPickerPick r bestPods with
    | none => none
    | some res => some (res, lruIncr loopResult.1 res.pod.namespacedName)

/-! ## Filters

The filter declarations (`lowLatencyFilter`, `sheddableRequestFilter`,
`hasCapacityFilter`, `dropRequestFilter`) and the scheduler come from
pkg/epp/scheduling/scorers/kvcache_aware_scorer.go of the sources; the
evaluation of `basicFilter`, `decisionTreeFilter` and the remaining
predicates lives in a file absent from the sources and is modelled from
the specification. -/

/-- The scheduler configuration; the source loads it from environment
variables with these defaults. -/
structure Config where
  kvCacheThreshold : ℚ
  queueThresholdCritical : Nat
  queueingThresholdLoRA : Nat
  loraAffinityThreshold : ℚ
deriving DecidableEq, Repr

/-- `LoadConfig()` with no environment variables set. -/
def defaultConfig : Config :=
  { kvCacheThreshold := 0.8
    queueThresholdCritical := 5
    queueingThresholdLoRA := 128
    loraAffinityThreshold := 0.999 }

/-- Modelled from the spec: predicate `QueueDepth ≤ QueueThresholdCritical`
(the definition of `queueThresholdPredicate` is not under the sources). -/
def queueThresholdPredicate (threshold : Nat) (pm : PodMetrics) : Bool :=
  decide (pm.queueDepth ≤ threshold)

/-- Modelled from the spec: predicate `KVCacheUtilization ≤ KVCacheThreshold`
(the definition of `kvCacheThresholdPredicate` is not under the sources). -/
def kvCacheThresholdPredicate (threshold : ℚ) (pm : PodMetrics) : Bool :=
  decide (pm.kvCacheUtilization ≤ threshold)

/-- The predicate of `hasCapacityFilter` as wired in the source:
`queueThresholdPredicate(QueueThresholdCritical).and(kvCacheThresholdPredicate(KVCacheThreshold))`. -/
def hasCapacityPredicate (cfg : Config) (pm : PodMetrics) : Bool :=
  queueThresholdPredicate cfg.queueThresholdCritical pm
    && kvCacheThresholdPredicate cfg.kvCacheThreshold pm

/-- Modelled from the spec: whether a pod already has the requested LoRA
loaded or still has a free LoRA slot (`loRAAffinityFilter` is not under
the sources). -/
def loRAAffinityPredicate (req : LLMRequest) (pm : PodMetrics) : Bool :=
  pm.activeLoRAAdapters.contains req.model
    || decide (pm.activeLoRAAdapters.length < pm.maxLoRASlots)

/-- The atomic filters of the pipeline. -/
inductive BasicFilterKind where
  | lowQueue
  | leastQueue
  | leastKVCache
  | loRAAffinity
  | hasCapacity
  | dropRequest
deriving DecidableEq, Repr

/-- Modelled from the spec: the behaviour of each basic filter.  A basic
filter keeps the sub-sequence of pods satisfying its predicate in order;
`leastQueue` and `leastKVCache` keep the pods attaining the minimum over
the input; `loRAAffinity` is the identity when the request names no
adapter; `dropRequest` (whose body IS in the sources) returns the empty
list together with an `InferencePoolResourceExhausted` error. -/
def runBasicFilter (cfg : Config) (req : LLMRequest) (kind : BasicFilterKind)
    (pods : List PodMetrics) : List PodMetrics × Option GoError :=
  match kind with
  | .lowQueue =>
      (pods.filter (queueThresholdPredicate cfg.queueThresholdCritical), none)
  | .leastQueue =>
      (pods.filter (fun pm => pods.all (fun q => decide (pm.queueDepth ≤ q.queueDepth))), none)
  | .leastKVCache =>
      (pods.filter (fun pm =>
        pods.all (fun q => decide (pm.kvCacheUtilization ≤ q.kvCacheUtilization))), none)
  | .loRAAffinity =>
      if req.model = "" then (pods, none)
      else (pods.filter (loRAAffinityPredicate req), none)
  | .hasCapacity =>
      (pods.filter (hasCapacityPredicate cfg), none)
  | .dropRequest =>
      ([], some (.errUtil .InferencePoolResourceExhausted
        "dropping request due to limited backend resources"))

/-- A filter is a basic filter or a decision-tree node with optional
`nextOnSuccess`, `nextOnFailure` and `nextOnSuccessOrFailure` children. -/
inductive Filter where
  | basic (kind : BasicFilterKind)
  | decisionTree (current : Filter) (nextOnSuccess nextOnFailure nextOnSuccessOrFailure : Option Filter)
deriving Repr

mutual

/-- Modelled from the spec: decision-tree evaluation.  Run `current`; a
non-empty, error-free result is a success routed with the filtered pods,
a failure is routed with the input pods; the routed-to child is selected
by `Filter.runNext` (the dedicated child preferred over
`nextOnSuccessOrFailure`; with no child on the taken side the current
output is returned directly). -/
def Filter.run (cfg : Config) (req : LLMRequest) :
    Filter → List PodMetrics → List PodMetrics × Option GoError
  | .basic kind, pods => runBasicFilter cfg req kind pods
  | .decisionTree current s f sf, pods =>
    let res := Filter.run cfg req current pods
    if res.2 = none ∧ res.1 ≠ [] then
      Filter.runNext cfg req s sf res res.1
    else
      Filter.runNext cfg req f sf res pods
termination_by f _ => sizeOf f

/-- Route to the dedicated child if present, else to the
success-or-failure child, else return the current result. -/
def Filter.runNext (cfg : Config) (req : LLMRequest) :
    Option Filter → Option Filter → List PodMetrics × Option GoError →
      List PodMetrics → List PodMetrics × Option GoError
  | some child, _, _, pods => Filter.run cfg req child pods
  | none, some child, _, pods => Filter.run cfg req child pods
  | none, none, res, _ => res
termination_by a b _ _ => sizeOf a + sizeOf b

end

def lowQueueFilter : Filter := .basic .lowQueue
def leastQueueFilter : Filter := .basic .leastQueue
def leastKVCacheFilter : Filter := .basic .leastKVCache
def loRAAffinityFilter : Filter := .basic .loRAAffinity
def hasCapacityFilter : Filter := .basic .hasCapacity
def dropRequestFilter : Filter := .basic .dropRequest

/-- `lowLatencyFilter` exactly as wired in the source. -/
def lowLatencyFilter : Filter :=
  .decisionTree lowQueueFilter
    (some (.decisionTree loRAAffinityFilter none none
      (some (.decisionTree leastQueueFilter none none
        (some (.decisionTree leastKVCacheFilter none none none))))))
    (some (.decisionTree leastQueueFilter none none
      (some (.decisionTree loRAAffinityFilter none none
        (some (.decisionTree leastKVCacheFilter none none none))))))
    none

/-- `sheddableRequestFilter` exactly as wired in the source. -/
def sheddableRequestFilter : Filter :=
  .decisionTree hasCapacityFilter (some lowLatencyFilter) (some dropRequestFilter) none

/-! ## Scorer manager and scheduler -/

/-- The two scorers the scheduler registers. -/
inductive ScorerKind where
  | sessionAffinity
  | kvCacheAware
deriving DecidableEq, Repr

def runScorer (ds : Datastore) (idx : Indexer) (req : LLMRequest) :
    ScorerKind → List PodMetrics → Except GoError (List PodScore)
  | .sessionAffinity, pods => sessionAffinityScoreTargets ds req pods
  | .kvCacheAware, pods => kvCacheAwareScoreTargets idx req pods

/-- The score a scorer output assigns to a pod; pods the scorer omitted
count as 0. -/
def scoreOf (scored : List PodScore) (pm : PodMetrics) : ℚ :=
  match scored.find? (fun ps => decide (ps.pod = pm)) with
  | some ps => ps.score
  | none => 0

/-- The weighted sum of the scorer outputs for one pod. -/
def combinedScore (outs : List (ℚ × List PodScore)) (pm : PodMetrics) : ℚ :=
  (outs.map (fun wl => wl.1 * scoreOf wl.2 pm)).sum

/-- Run every registered scorer, failing the whole call on the first
scorer error (scoring is all-or-nothing). -/
def runAllScorers (ds : Datastore) (idx : Indexer) (req : LLMRequest) :
    List (ScorerKind × ℚ) → List PodMetrics → Except GoError (List (ℚ × List PodScore))
  | [], _ => .ok []
  | (kind, weight) :: rest, pods =>
    match runScorer ds idx req kind pods with
    | .error e => .error e
    | .ok scored =>
      match runAllScorers ds idx req rest pods with
      | .error e => .error e
      | .ok outs => .ok ((weight, scored) :: outs)

/-- The scorer registrations of `NewScheduler`: session affinity with
weight 1.0 and the KV-cache-aware scorer with weight 5.0. -/
def defaultScorers : List (ScorerKind × ℚ) := [(.sessionAffinity, 1), (.kvCacheAware, 5)]

/-- Modelled from the spec: `ScorerManager.ScoreTargets` (its definition
is not under the sources).  Run every scorer, combine per-pod scores as a
weighted sum, keep the pods attaining the maximum combined score and
break ties with the random picker. -/
def scorerManagerScoreTargets (ds : Datastore) (idx : Indexer) (r : Nat)
    (req : LLMRequest) (pods : List PodMetrics) : Except GoError PodMetrics :=
  match runAllScorers ds idx req defaultScorers pods with
  | .error e => .error e
  | .ok outs =>
    let best := pods.filter (fun pm =>
      pods.all (fun q => decide (combinedScore outs q ≤ combinedScore outs pm)))
    match randomPickerPick r best with
    | some winner => .ok winner
    | none => .error (.errUtil .Internal "no pods to select from")

/-- `Scheduler.Schedule`: snapshot the pods, choose the filter branch by
criticality, run the filter (wrapping its error, or failing on an empty
result), then run the scorer manager on the surviving pods. -/
def schedule (ds : Datastore) (idx : Indexer) (r : Nat) (req : LLMRequest) :
    Except GoError PodMetrics :=
  let podsSnapshot := ds.podGetAll
  let filter := if req.critical then lowLatencyFilter else sheddableRequestFilter
  let res := Filter.run defaultConfig req filter podsSnapshot
  match res.2 with
  | some err =>
      .error (.wrap "failed to apply filter, resulted 0 pods, this should never happen" err)
  | none =>
    if res.1 = [] then
      .error (.simple "failed to apply filter, resulted 0 pods, this should never happen")
    else
      match scorerManagerScoreTargets ds idx r req res.1 with
      | .error e => .error (.wrap "failed to apply scorers" e)
      | .ok selectedPod => .ok selectedPod

/-! ## Iteration helper and concrete sample inputs -/

/-- Iterate `PodDelete` on one key `n` times with no intervening re-add,
counting how many of the calls invoked `StopRefreshLoop`. -/
def podDeleteIter (ds : Datastore) (nn : NamespacedName) : Nat → Datastore × Nat
  | 0 => (ds, 0)
  | n + 1 =>
    let step := ds.podDelete nn
    let rest := podDeleteIter step.1 nn n
    (rest.1, (if step.2 then 1 else 0) + rest.2)

/-- A ready, uncongested sample pod. -/
def samplePod : PodMetrics :=
  { pod := { namespacedName := { ns := "default", name := "pod-a" }, address := "10.0.0.1:8000" }
    queueDepth := 0
    kvCacheUtilization := 0
    activeLoRAAdapters := []
    maxLoRASlots := 1 }

/-- A congested sample pod: queue depth 10, KV-cache utilization 0.95. -/
def congestedPod : PodMetrics :=
  { pod := { namespacedName := { ns := "default", name := "pod-b" }, address := "10.0.0.2:8000" }
    queueDepth := 10
    kvCacheUtilization := 0.95
    activeLoRAAdapters := []
    maxLoRASlots := 1 }

/-- A sample pool selecting `app=vllm`. -/
def samplePool : InferencePool :=
  { name := "pool", ns := "default", spec_selector := [("app", "vllm")] }

def sampleLabels : List (String × String) := [("app", "vllm"), ("zone", "a")]

/-- A datastore with the sample pool set and the sample pod stored. -/
def dsWithPool : Datastore :=
  { pool := some samplePool
    models := []
    pods := [(samplePod.pod.namespacedName, samplePod)]
    sessions := [] }

/-- A datastore before the first `PoolSet`. -/
def dsNoPool : Datastore :=
  { pool := none, models := [], pods := [], sessions := [] }

/-- A datastore holding only the congested pod. -/
def dsCongested : Datastore :=
  { pool := none
    models := []
    pods := [(congestedPod.pod.namespacedName, congestedPod)]
    sessions := [] }

/-- A datastore with a session pinned to the sample pod. -/
def dsSession : Datastore :=
  { pool := none
    models := []
    pods := [(samplePod.pod.namespacedName, samplePod)]
    sessions := [("s1", { pod := samplePod.pod, lru := 0 })] }

/-- An indexer that always fails with an opaque transport error. -/
def failingIndexer : Indexer :=
  fun _ _ _ => .error (.simple "connection refused")

/-- An indexer that succeeds with an empty score list. -/
def emptyIndexer : Indexer :=
  fun _ _ _ => .ok []

/-- A critical sample request. -/
def criticalReq : LLMRequest :=
  { model := "m", prompt := "p", sessionID := "", critical := true }

/-- A sheddable sample request. -/
def sheddableReq : LLMRequest :=
  { model := "m", prompt := "p", sessionID := "", critical := false }

/-- A request carrying the session id stored in `dsSession`. -/
def sessionReq : LLMRequest :=
  { model := "m", prompt := "p", sessionID := "s1", critical := true }

/-- The scored list the session-affinity scorer produces for
`dsSession`, `sessionReq` and the two sample pods. -/
def sessionScored : List PodScore :=
  [{ pod := samplePod, score := 1 }, { pod := congestedPod, score := 0 }]

/-! ## Theorems -/

/-- C7: after `Clear()` the pool is unset (`PoolHasSynced` is false), the
model registry and the pod map are empty, and `GetPodForSession` returns
the same value as before for every session id. -/
theorem clear_frame (ds : Datastore) :
    (ds.clear).poolHasSynced = false
      ∧ (ds.clear).models = []
      ∧ (ds.clear).pods = []
      ∧ ∀ sessionID, (ds.clear).getPodForSession sessionID = ds.getPodForSession sessionID :=
  ⟨rfl, rfl, rfl, fun _ => rfl⟩

/-- C5: `ModelSetIfOlder` installs the incoming model under its
`Spec.ModelName`, except when an existing entry is a different namespaced
object with a strictly earlier creation timestamp, in which case the
store is unchanged; identity matches replace unconditionally; the call
returns true iff the store holds the incoming object afterwards. -/
theorem modelSetIfOlder_spec (ds : Datastore) (m : InferenceModel) :
    (match ds.modelGet m.spec_modelName with
      | none =>
          (ds.modelSetIfOlder m).1.modelGet m.spec_modelName = some m
            ∧ (ds.modelSetIfOlder m).2 = true
      | some existing =>
          if (m.name ≠ existing.name ∨ m.ns ≠ existing.ns)
              ∧ existing.creationTimestamp < m.creationTimestamp then
            (ds.modelSetIfOlder m).1 = ds ∧ (ds.modelSetIfOlder m).2 = false
          else
            (ds.modelSetIfOlder m).1.modelGet m.spec_modelName = some m
              ∧ (ds.modelSetIfOlder m).2 = true)
    ∧ ((ds.modelSetIfOlder m).2 = true ↔
        (ds.modelSetIfOlder m).1.modelGet m.spec_modelName = some m) := by
  cases h : alookup ds.models m.spec_modelName with
  | none =>
    simp [Datastore.modelGet, Datastore.modelSetIfOlder, h, alookup_ainsert_self]
  | some existing =>
    by_cases hc : (m.name ≠ existing.name ∨ m.ns ≠ existing.ns)
        ∧ existing.creationTimestamp < m.creationTimestamp
    · have hne : m ≠ existing := by
        intro he
        rcases hc.1 with h1 | h1 <;> exact h1 (by rw [he])
      simp [Datastore.modelGet, Datastore.modelSetIfOlder, h, hc]
      exact fun he => hne he.symm
    · simp [Datastore.modelGet, Datastore.modelSetIfOlder, h, hc, alookup_ainsert_self]

/-- `PodDelete` on a key with no stored entry is a no-op that does not
stop anything. -/
theorem podDelete_absent (ds : Datastore) (nn : NamespacedName)
    (h : alookup ds.pods nn = none) : ds.podDelete nn = (ds, false) := by
  simp [Datastore.podDelete, h]

/-- Iterating `PodDelete` on a key with no stored entry never stops
anything and never changes the store. -/
theorem podDeleteIter_absent (nn : NamespacedName) :
    ∀ (n : Nat) (ds : Datastore), alookup ds.pods nn = none →
      podDeleteIter ds nn n = (ds, 0) := by
  intro n
  induction n with
  | zero => intro ds _; rfl
  | succ k ih =>
    intro ds h
    simp [podDeleteIter, podDelete_absent ds nn h, ih ds h]

/-- C8: for a stored pod key, any positive number of consecutive
`PodDelete` calls on that key invokes `StopRefreshLoop` exactly once (on
the first call, which removes the entry), the store ends as after the
first call, and a delete on a key with no entry is a no-op with no stop. -/
theorem podDelete_stops_once (ds : Datastore) (nn : NamespacedName) (pm : PodMetrics)
    (h : alookup ds.pods nn = some pm) (n : Nat) (hn : 1 ≤ n) :
    (ds.podDelete nn).2 = true
      ∧ (podDeleteIter ds nn n).2 = 1
      ∧ (podDeleteIter ds nn n).1 = (ds.podDelete nn).1
      ∧ ∀ ds2 : Datastore, alookup ds2.pods nn = none → ds2.podDelete nn = (ds2, false) := by
  cases n with
  | zero => exact absurd hn (by decide)
  | succ k =>
    have hstep : ds.podDelete nn = ({ ds with pods := aerase ds.pods nn }, true) := by
      simp [Datastore.podDelete, h]
    have habs : alookup ({ ds with pods := aerase ds.pods nn } : Datastore).pods nn = none :=
      alookup_aerase_self ds.pods nn
    have hiter : podDeleteIter ds nn (k + 1) = ({ ds with pods := aerase ds.pods nn }, 1) := by
      simp [podDeleteIter, hstep, podDeleteIter_absent nn k _ habs]
    exact ⟨by simp [hstep], by simp [hiter], by simp [hiter, hstep],
      fun ds2 h2 => podDelete_absent ds2 nn h2⟩

/-- Witness for C8 at a concrete store: two consecutive deletes of the
sample pod stop it exactly once. -/
theorem podDelete_stops_once_witness :
    alookup dsWithPool.pods samplePod.pod.namespacedName = some samplePod
      ∧ 1 ≤ 2
      ∧ (podDeleteIter dsWithPool samplePod.pod.namespacedName 2).2 = 1 :=
  ⟨by rfl, by decide,
    (podDelete_stops_once dsWithPool samplePod.pod.namespacedName samplePod (by rfl) 2
      (by decide)).2.1⟩

/-- C10: `PoolLabelsMatch` is nil-safe only after `PoolSet`: with the pool
unset it dereferences the nil pool descriptor (`none`); with the pool set
it returns whether the pool selector admits the given label set. -/
theorem poolLabelsMatch_spec (ds : Datastore) (podLabels : List (String × String)) :
    (∀ pool, ds.pool = some pool →
        ds.poolHasSynced = true
          ∧ ds.poolLabelsMatch podLabels = some (selectorMatches pool.spec_selector podLabels))
      ∧ (ds.pool = none →
          ds.poolHasSynced = false ∧ ds.poolLabelsMatch podLabels = none) := by
  constructor
  · intro pool hp
    simp [Datastore.poolHasSynced, Datastore.poolLabelsMatch, hp]
  · intro hp
    simp [Datastore.poolHasSynced, Datastore.poolLabelsMatch, hp]

/-- Witness for C10 at concrete stores: with the sample pool set the call
evaluates the selector; with no pool it reaches the nil dereference. -/
theorem poolLabelsMatch_witness :
    dsWithPool.pool = some samplePool
      ∧ dsWithPool.poolLabelsMatch sampleLabels
          = some (selectorMatches samplePool.spec_selector sampleLabels)
      ∧ dsNoPool.pool = none
      ∧ dsNoPool.poolLabelsMatch sampleLabels = none :=
  ⟨rfl, ((poolLabelsMatch_spec dsWithPool sampleLabels).1 samplePool rfl).2, rfl,
    ((poolLabelsMatch_spec dsNoPool sampleLabels).2 rfl).2⟩

/-- A rendered namespaced name contains a slash, so it is never empty. -/
theorem render_ne_empty (n : NamespacedName) : n.render ≠ "" := by
  intro h
  have hlen := congrArg String.length h
  simp [NamespacedName.render, String.length_append] at hlen
  exact absurd hlen.1.2 (by decide)

/-- C3: `SessionAffinityScorer.ScoreTargets` never fails, returns one
entry per input pod in order, scores 0 everywhere when the session id is
empty or unknown, and otherwise scores 1.0 exactly on the pods whose
namespaced name renders equal to the stored session pod and 0.0 on every
other pod. -/
theorem sessionAffinityScoreTargets_spec (ds : Datastore) (req : LLMRequest)
    (pods : List PodMetrics) :
    (∃ scoredPods, sessionAffinityScoreTargets ds req pods = .ok scoredPods)
    ∧ ∀ scoredPods, sessionAffinityScoreTargets ds req pods = .ok scoredPods →
        scoredPods.length = pods.length
        ∧ (∀ (i : Nat) (pm : PodMetrics), pods[i]? = some pm →
            (scoredPods[i]?).map PodScore.pod = some pm)
        ∧ (req.sessionID = "" → ∀ ps ∈ scoredPods, ps.score = 0)
        ∧ (req.sessionID ≠ "" → ds.getPodForSession req.sessionID = none →
            ∀ ps ∈ scoredPods, ps.score = 0)
        ∧ (∀ (sp : Pod), req.sessionID ≠ "" → ds.getPodForSession req.sessionID = some sp →
            ∀ (i : Nat) (pm : PodMetrics) (ps : PodScore),
              pods[i]? = some pm → scoredPods[i]? = some ps →
              ps.score =
                if sp.namespacedName.render = pm.pod.namespacedName.render then 1 else 0) := by
  constructor
  · exact ⟨_, rfl⟩
  · intro scoredPods hok
    have hmap : scoredPods = pods.map (fun pod =>
        ({ pod := pod,
           score := if (if req.sessionID ≠ "" then
                 match ds.getPodForSession req.sessionID with
                 | some selectedPod => selectedPod.namespacedName.render
                 | none => ""
               else "") = pod.pod.namespacedName.render then 1 else 0 } : PodScore)) := by
      simpa [sessionAffinityScoreTargets] using hok.symm
    subst hmap
    refine ⟨by simp, ?_, ?_, ?_, ?_⟩
    · intro i pm hi
      rw [List.getElem?_map, hi]
      rfl
    · intro hE ps hps
      rcases List.mem_map.mp hps with ⟨pod, _, rfl⟩
      simp [hE, Ne.symm (render_ne_empty pod.pod.namespacedName)]
    · intro hne hnone ps hps
      rcases List.mem_map.mp hps with ⟨pod, _, rfl⟩
      simp [hne, hnone, Ne.symm (render_ne_empty pod.pod.namespacedName)]
    · intro sp hne hsp i pm ps hi hps
      rw [List.getElem?_map, hi] at hps
      have hps2 := Option.some.inj hps
      rw [← hps2]
      simp [hne, hsp]

/-- Witness for C3 at a concrete store: with a session pinned to the
sample pod, the sample pod scores 1 and the other pod 0, with one entry
per input pod. -/
theorem sessionAffinityScoreTargets_witness :
    sessionAffinityScoreTargets dsSession sessionReq [samplePod, congestedPod]
        = .ok sessionScored
      ∧ sessionScored.length = [samplePod, congestedPod].length :=
  ⟨by rfl,
    ((sessionAffinityScoreTargets_spec dsSession sessionReq [samplePod, congestedPod]).2
      sessionScored (by rfl)).1⟩

/-- C9: the random picker never fails on a non-empty candidate list and
its result is one of the candidates; the `rand.Intn` panic branch is
unreachable under that precondition. -/
theorem randomPickerPick_spec (r : Nat) (pods : List PodMetrics) (h : pods ≠ []) :
    ∃ p, randomPickerPick r pods = some p ∧ p ∈ pods := by
  have hlen : pods.length ≠ 0 := fun hz => h (List.length_eq_zero.mp hz)
  have hlt : r % pods.length < pods.length := Nat.mod_lt _ (Nat.pos_of_ne_zero hlen)
  refine ⟨pods[r % pods.length], ?_, List.getElem_mem hlt⟩
  simp [randomPickerPick, hlen, List.getElem?_eq_getElem hlt]

/-- Witness for C9 at a concrete candidate list. -/
theorem randomPickerPick_witness :
    ([samplePod] : List PodMetrics) ≠ []
      ∧ ∃ p, randomPickerPick 0 [samplePod] = some p ∧ p ∈ [samplePod] :=
  ⟨by simp, randomPickerPick_spec 0 [samplePod] (by simp)⟩

/-- C6 fails above the sentinel: with a single candidate whose stored
usage count is 100001, the loop of `LRUPicker.Pick` keeps its best list
empty because `minUsages` starts at the literal 100000, so the pick falls
through to the random picker on an empty slice, whose `rand.Intn(0)`
panics (modelled as `none`) instead of returning the minimum-usage
candidate. -/
theorem lruPickerPick_sentinel_overflow :
    lruPickerPick [(samplePod.pod.namespacedName, 100001)] 0 [samplePod] = none := by
  rfl

/-- Every value reachable by lookup in the identifier-to-pod map built by
folding `ainsert` over the pod list is one of the pods (or was already in
the starting map). -/
theorem alookup_foldl_ainsert_mem {pods : List PodMetrics} :
    ∀ (m : List (String × PodMetrics)) (k : String) (pm : PodMetrics),
      alookup (pods.foldl (fun m pod => ainsert m pod.pod.address pod) m) k = some pm →
      pm ∈ pods ∨ (k, pm) ∈ m := by
  induction pods with
  | nil => exact fun m k pm h => Or.inr (alookup_mem h)
  | cons p rest ih =>
    intro m k pm h
    rcases ih (ainsert m p.pod.address p) k pm h with h1 | h1
    · exact Or.inl (List.mem_cons_of_mem _ h1)
    · rcases ainsert_mem h1 with h2 | h2
      · have hpm : pm = p := congrArg Prod.snd h2
        exact Or.inl (hpm ▸ List.mem_cons_self _ _)
      · exact Or.inr h2

/-- Lookup in the second component of `podMetricsToKeysAndMap` only ever
returns pods of the input list. -/
theorem podMap_mem {pods : List PodMetrics} {k : String} {pm : PodMetrics}
    (h : alookup (podMetricsToKeysAndMap pods).2 k = some pm) : pm ∈ pods := by
  rcases alookup_foldl_ainsert_mem ([] : List (String × PodMetrics)) k pm h with h1 | h1
  · exact h1
  · simp at h1

/-- The score-collection fold of `KVCacheAwareScorer.ScoreTargets`
preserves the property that every collected pod came from the map. -/
theorem kvFold_mem (mp : List (String × PodMetrics)) (P : PodMetrics → Prop)
    (hmp : ∀ k pm, alookup mp k = some pm → P pm) :
    ∀ (scores : List NameScore) (acc : List PodScore),
      (∀ ps ∈ acc, P ps.pod) →
      ∀ ps ∈ scores.foldl (fun scoredPods pod =>
          match alookup mp pod.name with
          | some podMetrics => scoredPods ++ [{ score := pod.score, pod := podMetrics }]
          | none => scoredPods) acc,
        P ps.pod := by
  intro scores
  induction scores with
  | nil => exact fun acc hacc ps hps => hacc ps hps
  | cons sc rest ih =>
    intro acc hacc ps hps
    cases hl : alookup mp sc.name with
    | none =>
      refine ih acc hacc ps ?_
      simpa [hl] using hps
    | some podM =>
      refine ih (acc ++ [{ score := sc.score, pod := podM }]) ?_ ps ?_
      · intro q hq
        rcases List.mem_append.mp hq with h1 | h1
        · exact hacc q h1
        · have hq2 : q = { score := sc.score, pod := podM } := by simpa using h1
          rw [hq2]
          exact hmp _ _ hl
      · simpa [hl] using hps

/-- C4 as stated is false at a concrete input: when the indexer fails,
the scorer returns the indexer error wrapped by a plain `fmt.Errorf`, and
that error does not carry the `KVCacheIndexerUnavailable` code. -/
theorem kvCacheAware_no_code_counterexample :
    kvCacheAwareScoreTargets failingIndexer criticalReq [samplePod]
        = .error (.wrap "failed to get pod scores" (.simple "connection refused"))
      ∧ (GoError.wrap "failed to get pod scores"
          (.simple "connection refused")).carriesCode .KVCacheIndexerUnavailable = false :=
  ⟨rfl, rfl⟩

/-- C4 (amended): when `GetPodScores` fails, `ScoreTargets` returns no
scores and a non-nil error wrapping the indexer error (without attaching
any error code); when the indexer succeeds, the returned list contains
only pods from the input list. -/
theorem kvCacheAwareScoreTargets_spec (idx : Indexer) (req : LLMRequest)
    (pods : List PodMetrics) :
    (∀ err, pods ≠ [] →
        idx req.prompt req.model (podMetricsToKeysAndMap pods).1 = .error err →
        kvCacheAwareScoreTargets idx req pods = .error (.wrap "failed to get pod scores" err))
    ∧ (∀ scoredPods, kvCacheAwareScoreTargets idx req pods = .ok scoredPods →
        ∀ ps ∈ scoredPods, ps.pod ∈ pods) := by
  constructor
  · intro err hne hcall
    have hlen : ¬ (podMetricsToKeysAndMap pods).1.length = 0 := by
      simpa [podMetricsToKeysAndMap] using fun hz => hne (List.length_eq_zero.mp hz)
    simp [kvCacheAwareScoreTargets, hlen, hcall]
  · intro scoredPods hok ps hps
    by_cases hz : (podMetricsToKeysAndMap pods).1.length = 0
    · simp [kvCacheAwareScoreTargets, hz] at hok
      subst hok
      simp at hps
    · cases hcall : idx req.prompt req.model (podMetricsToKeysAndMap pods).1 with
      | error e => simp [kvCacheAwareScoreTargets, hz, hcall] at hok
      | ok scores =>
        simp [kvCacheAwareScoreTargets, hz, hcall] at hok
        rw [← hok] at hps
        exact kvFold_mem (podMetricsToKeysAndMap pods).2 (fun pm => pm ∈ pods)
          (fun k pm h => podMap_mem h) scores [] (by simp) ps hps

/-- Witness for C4 (amended) at a concrete input: one pod, an indexer
failing with an opaque transport error. -/
theorem kvCacheAwareScoreTargets_witness :
    ([samplePod] : List PodMetrics) ≠ []
      ∧ failingIndexer criticalReq.prompt criticalReq.model
          (podMetricsToKeysAndMap [samplePod]).1 = .error (.simple "connection refused")
      ∧ kvCacheAwareScoreTargets failingIndexer criticalReq [samplePod]
          = .error (.wrap "failed to get pod scores" (.simple "connection refused")) := by
  refine ⟨by simp, rfl, ?_⟩
  exact (kvCacheAwareScoreTargets_spec failingIndexer criticalReq [samplePod]).1
    (.simple "connection refused") (by simp) rfl

/-- Every basic filter returns a subset of its input pods. -/
theorem runBasicFilter_subset (cfg : Config) (req : LLMRequest) (kind : BasicFilterKind)
    (pods : List PodMetrics) : (runBasicFilter cfg req kind pods).1 ⊆ pods := by
  cases kind with
  | lowQueue => exact List.filter_subset' pods
  | leastQueue => exact List.filter_subset' pods
  | leastKVCache => exact List.filter_subset' pods
  | loRAAffinity =>
    simp only [runBasicFilter]
    split
    · exact fun x hx => hx
    · exact List.filter_subset' pods
  | hasCapacity => exact List.filter_subset' pods
  | dropRequest => exact List.nil_subset pods

/-- Joint strong-induction step for the subset property of the filter
tree: every `Filter.run` output is a sub-collection of its input, and
`Filter.runNext` preserves that property. -/
theorem filterRun_subset_aux (cfg : Config) (req : LLMRequest) : ∀ (n : Nat),
    (∀ (fl : Filter), sizeOf fl ≤ n → ∀ pods, (Filter.run cfg req fl pods).1 ⊆ pods)
    ∧ (∀ (a b : Option Filter), sizeOf a + sizeOf b ≤ n →
        ∀ (res : List PodMetrics × Option GoError) (pods : List PodMetrics), res.1 ⊆ pods →
        (Filter.runNext cfg req a b res pods).1 ⊆ pods) := by
  intro n
  induction n with
  | zero =>
    constructor
    · intro fl hf
      cases fl <;> simp at hf
    · intro a b hab
      cases a <;> cases b <;> simp at hab
  | succ k ih =>
    constructor
    · intro fl hf pods
      cases fl with
      | basic kind =>
        simp only [Filter.run]
        exact runBasicFilter_subset cfg req kind pods
      | decisionTree current s f sf =>
        simp only [Filter.decisionTree.sizeOf_spec] at hf
        have hcur : sizeOf current ≤ k := by omega
        have hsb : sizeOf s + sizeOf sf ≤ k := by omega
        have hfb : sizeOf f + sizeOf sf ≤ k := by omega
        have hres : (Filter.run cfg req current pods).1 ⊆ pods := ih.1 current hcur pods
        simp only [Filter.run]
        split
        · exact ((ih.2 s sf hsb _ _ (fun x hx => hx))).trans hres
        · exact ih.2 f sf hfb _ pods hres
    · intro a b hab res pods hres
      cases a with
      | some child =>
        simp only [Option.some.sizeOf_spec] at hab
        have hc : sizeOf child ≤ k := by omega
        simp only [Filter.runNext]
        exact ih.1 child hc pods
      | none =>
        cases b with
        | some child =>
          simp only [Option.some.sizeOf_spec] at hab
          have hc : sizeOf child ≤ k := by omega
          simp only [Filter.runNext]
          exact ih.1 child hc pods
        | none =>
          simp only [Filter.runNext]
          exact hres

/-- Every filter output is a sub-collection of the input pod list. -/
theorem filterRun_subset (cfg : Config) (req : LLMRequest) (fl : Filter)
    (pods : List PodMetrics) : (Filter.run cfg req fl pods).1 ⊆ pods :=
  (filterRun_subset_aux cfg req (sizeOf fl)).1 fl (Nat.le_refl _) pods

/-- A successful random pick is one of the candidates. -/
theorem randomPickerPick_mem {r : Nat} {l : List PodMetrics} {p : PodMetrics}
    (h : randomPickerPick r l = some p) : p ∈ l := by
  unfold randomPickerPick at h
  split at h
  · simp at h
  · exact List.getElem?_mem h

/-- A pod selected by the scorer manager is one of the pods it scored. -/
theorem scorerManager_mem (ds : Datastore) (idx : Indexer) (r : Nat) (req : LLMRequest)
    (pods : List PodMetrics) (p : PodMetrics)
    (h : scorerManagerScoreTargets ds idx r req pods = .ok p) : p ∈ pods := by
  unfold scorerManagerScoreTargets at h
  cases hrun : runAllScorers ds idx req defaultScorers pods with
  | error e => simp [hrun] at h
  | ok outs =>
    simp only [hrun] at h
    cases hp : randomPickerPick r (pods.filter (fun pm =>
        pods.all (fun q => decide (combinedScore outs q ≤ combinedScore outs pm)))) with
    | none => simp [hp] at h
    | some w =>
      simp only [hp] at h
      have hw : w = p := by
        simpa using h
      exact List.filter_subset' pods (hw ▸ randomPickerPick_mem hp)

/-- C2: whenever `Schedule` returns a pod without error, that pod belongs
to the pod snapshot taken from the datastore at the entry of the call. -/
theorem schedule_pod_from_snapshot (ds : Datastore) (idx : Indexer) (r : Nat)
    (req : LLMRequest) (pod : PodMetrics) (h : schedule ds idx r req = .ok pod) :
    pod ∈ ds.podGetAll := by
  simp only [schedule] at h
  split at h
  · simp at h
  · split at h
    all_goals
      split at h
      · simp at h
      · split at h
        · simp at h
        · next selected heq =>
          have hsel : selected = pod := by simpa using h
          have hmem := scorerManager_mem ds idx r req _ selected heq
          exact filterRun_subset defaultConfig req _ ds.podGetAll (hsel ▸ hmem)

/-- Witness for C2 at a concrete input: one uncongested pod, a critical
request and an indexer returning no scores; the scheduler returns that
pod, and it belongs to the snapshot. -/
theorem schedule_pod_from_snapshot_witness :
    schedule dsWithPool emptyIndexer 0 criticalReq = .ok samplePod
      ∧ samplePod ∈ dsWithPool.podGetAll := by
  have hok : schedule dsWithPool emptyIndexer 0 criticalReq = .ok samplePod := by
    simp +decide [schedule, Filter.run, Filter.runNext, runBasicFilter, dsWithPool,
      samplePod, criticalReq, defaultConfig, lowLatencyFilter, lowQueueFilter,
      loRAAffinityFilter, leastQueueFilter, leastKVCacheFilter, queueThresholdPredicate,
      kvCacheThresholdPredicate, loRAAffinityPredicate, Datastore.podGetAll,
      scorerManagerScoreTargets, runAllScorers, runScorer, defaultScorers,
      sessionAffinityScoreTargets, kvCacheAwareScoreTargets, podMetricsToKeysAndMap,
      emptyIndexer, combinedScore, scoreOf, randomPickerPick, Datastore.getPodForSession,
      alookup, NamespacedName.render]
  exact ⟨hok, schedule_pod_from_snapshot dsWithPool emptyIndexer 0 criticalReq samplePod hok⟩

/-- C1: a sheddable request scheduled against a snapshot in which no pod
satisfies the capacity predicate is dropped: `Schedule` returns no pod
and an error whose unwrap chain carries the
`InferencePoolResourceExhausted` code raised by the drop filter. -/
theorem schedule_sheddable_drop (ds : Datastore) (idx : Indexer) (r : Nat)
    (req : LLMRequest) (hcrit : req.critical = false)
    (hcap : ∀ pm ∈ ds.podGetAll, hasCapacityPredicate defaultConfig pm = false) :
    ∃ e, schedule ds idx r req = .error e
      ∧ e.carriesCode .InferencePoolResourceExhausted = true := by
  have hfil : (ds.podGetAll).filter (hasCapacityPredicate defaultConfig) = [] :=
    List.filter_eq_nil_iff.mpr (fun pm hpm => by simp [hcap pm hpm])
  have hrun : Filter.run defaultConfig req sheddableRequestFilter ds.podGetAll
      = ([], some (.errUtil .InferencePoolResourceExhausted
          "dropping request due to limited backend resources")) := by
    simp [sheddableRequestFilter, hasCapacityFilter, dropRequestFilter, Filter.run,
      Filter.runNext, runBasicFilter, hfil]
  refine ⟨.wrap "failed to apply filter, resulted 0 pods, this should never happen"
      (.errUtil .InferencePoolResourceExhausted
        "dropping request due to limited backend resources"), ?_, rfl⟩
  simp [schedule, hcrit, hrun]

/-- Witness for C1 at the concrete drop scenario of the specification:
one pod with queue depth 10 and KV-cache utilization 0.95, default
thresholds, a sheddable request. -/
theorem schedule_sheddable_drop_witness :
    sheddableReq.critical = false
      ∧ (∀ pm ∈ dsCongested.podGetAll, hasCapacityPredicate defaultConfig pm = false)
      ∧ ∃ e, schedule dsCongested failingIndexer 0 sheddableReq = .error e
          ∧ e.carriesCode .InferencePoolResourceExhausted = true :=
  ⟨rfl, by decide,
    schedule_sheddable_drop dsCongested failingIndexer 0 sheddableReq rfl (by decide)⟩

end InfExt
